import Mathlib

/-!
Shallow embedding of `src/enzyme_call.cc` (the Enzyme-JAX dynamic CPU-kernel
registry): the kernel registry state (`kernels`, `last_identifier`, the lazily
constructed JIT singleton), the `CpuKernel::create` / `CpuKernel::get`
operations, the `CpuCallback` dispatcher, and the source synthesizer embedded
in `create` (lines 86-111).  External collaborators (the clang compilation job,
the LLJIT builder, module addition and symbol lookup) are modelled as boolean
oracles supplied per `create` call, since the core only branches on their
success; the resolved entry address is likewise an oracle value.  Signed
64-bit identifiers are modelled as `Int` (the counter starts at 1 and is only
ever incremented; no claim concerns overflow).
-/

namespace EnzymeCall

/-- A tensor shape: the `llvm::SmallVector<int64_t>` of dimension extents. -/
abbrev Shape := List Int

/-- The per-kernel record stored by the registry: mirrors the fields of class
`CpuKernel` (`identifier`, `out_shapes`, `addr`), cf. lines 57-65. -/
structure KernelRecord where
  identifier : Int
  out_shapes : List Shape
  addr : Nat
deriving Repr, DecidableEq

/-- Lookup in the registry map, mirroring `kernels.find(identifier)` on the
`llvm::DenseMap<int64_t, std::unique_ptr<CpuKernel>>` (modelled as an
association list). -/
def lookupKernel : List (Int × KernelRecord) → Int → Option KernelRecord
  | [], _ => none
  | (k, r) :: rest, i => if k = i then some r else lookupKernel rest i

/-- `DenseMap::try_emplace`: insert only when the key is absent. -/
def tryEmplace (m : List (Int × KernelRecord)) (k : Int) (r : KernelRecord) :
    List (Int × KernelRecord) :=
  match lookupKernel m k with
  | some _ => m
  | none => (k, r) :: m

/-- The mutable statics of `CpuKernel` (lines 177-182): the registry map, the
identifier counter, and whether the `LLJIT` singleton has been constructed
(`JIT` non-null).  The `DataLayout` singleton is not modelled: no operation
branches on it. -/
structure RegState where
  kernels : List (Int × KernelRecord)
  last_identifier : Int
  jit : Bool
deriving Repr, DecidableEq

/-- Initial static state: empty map, `last_identifier = 1` (line 179),
`JIT = nullptr` (line 182). -/
def initState : RegState :=
  { kernels := [], last_identifier := 1, jit := false }

/-- The four failure exits of `CpuKernel::create`: compilation failure
(line 115), JIT-construction failure (line 125), module-add failure
(line 137), entry-symbol lookup failure (line 143). -/
inductive CreateError
  | compileFail
  | jitFail
  | addFail
  | lookupFail
deriving Repr, DecidableEq

/-- Per-call outcomes of the external collaborators consulted by `create`:
whether `GetLLVMFromJob` returns a module, whether `LLJITBuilder::create`
succeeds (consulted only while the singleton is null), whether `addIRModule`
and the `entry` symbol lookup succeed, and the resolved entry address. -/
structure Oracle where
  compileOk : Bool
  jitOk : Bool
  addOk : Bool
  lookupOk : Bool
  entryAddr : Nat
deriving Repr, DecidableEq

/-- `CpuKernel::create` (lines 75-153) as a state transition.  The identifier
is taken from `last_identifier` and the counter post-incremented before any
failure can occur (line 82); each failure throws, leaving the registry map
untouched; on the JIT path, a null singleton is constructed exactly when the
builder oracle succeeds, so after a successful JIT check the singleton is
constructed in either case; success inserts the record via `try_emplace` and
returns the allocated identifier (lines 149-152). -/
def create (st : RegState) (o : Oracle) (outs : List Shape) :
    Except CreateError Int × RegState :=
  let identifier := st.last_identifier
  let st1 : RegState := { st with last_identifier := st.last_identifier + 1 }
  if o.compileOk = false then
    (Except.error CreateError.compileFail, st1)
  else if st1.jit = false ∧ o.jitOk = false then
    (Except.error CreateError.jitFail, st1)
  else
    let st2 : RegState := { st1 with jit := true }
    if o.addOk = false then
      (Except.error CreateError.addFail, st2)
    else if o.lookupOk = false then
      (Except.error CreateError.lookupFail, st2)
    else
      (Except.ok identifier,
        { st2 with
          kernels := tryEmplace st2.kernels identifier
            { identifier := identifier, out_shapes := outs, addr := o.entryAddr } })

/-- `CpuKernel::get` (lines 155-160): lookup under the reader lock, `nullptr`
(here `none`) when absent. -/
def get (st : RegState) (identifier : Int) : Option KernelRecord :=
  lookupKernel st.kernels identifier

/-- One `create` invocation of a trace: its oracle outcomes and the supplied
output-shape list. -/
structure CreateCall where
  o : Oracle
  outs : List Shape
deriving Repr, DecidableEq

/-- Run a sequence of `create` calls, collecting each call's result. -/
def runTrace : RegState → List CreateCall → RegState × List (Except CreateError Int)
  | st, [] => (st, [])
  | st, c :: rest =>
    let step := create st c.o c.outs
    let tail := runTrace step.2 rest
    (tail.1, step.1 :: tail.2)

/-! ## Dispatcher (`CpuKernel::call`, `CpuCallback`) -/

/-- How `CpuKernel::call` (line 163) interprets the host-supplied `out`
pointer before passing it to the entry function: either the address of the
single supplied pointer (`&out`, the direct path) or the supplied value
reinterpreted as an array of per-output pointers
(`reinterpret_cast<void **>(out)`).  Pointers are modelled as `Nat`. -/
inductive OutsArg
  | direct (out : Nat)
  | array (out : Nat)
deriving Repr, DecidableEq

/-- The native call issued by `CpuKernel::call` (line 167): the entry address
invoked and the two pointer-array arguments it receives. -/
structure CallEvent where
  addr : Nat
  outsArg : OutsArg
  insArg : List Nat
deriving Repr, DecidableEq

/-- `CpuKernel::call` (lines 162-169): select the outputs interpretation by
`out_shapes.size() > 1` and invoke the stored entry address on the outputs
array and the supplied inputs array. -/
def KernelRecord.call (r : KernelRecord) (out : Nat) (ins : List Nat) : CallEvent :=
  { addr := r.addr
    outsArg := if r.out_shapes.length > 1 then OutsArg.array out else OutsArg.direct out
    insArg := ins }

/-- Outcome of `CpuCallback`: either `report_fatal_error` (line 191, which
terminates the process; no entry address is called) or a native call to a
registered kernel's entry address. -/
inductive CallbackOutcome
  | fatal
  | called (e : CallEvent)
deriving Repr, DecidableEq

/-- `CpuCallback` (lines 186-195).  The host's foreign-call ABI guarantees the
zeroth input slot exists and references a 64-bit identifier, so the inputs
area is modelled as a head slot `ins0` plus the remaining slots `insRest`
(`ins + 1`); `readI64` models dereferencing a slot as an `int64_t`
(`*reinterpret_cast<int64_t *>(ins[0])`, line 187). -/
def CpuCallback (st : RegState) (readI64 : Nat → Int) (out : Nat)
    (ins0 : Nat) (insRest : List Nat) : CallbackOutcome :=
  let identifier := readI64 ins0
  match get st identifier with
  | none => CallbackOutcome.fatal
  | some kernel => CallbackOutcome.called (kernel.call out insRest)

/-! ## Source synthesizer (`CpuKernel::make_type` and `create` lines 86-111) -/

/-- `CpuKernel::make_type` (lines 67-73): `"const "` (when requested) then
`"enzyme::tensor<"`, the element type name, `", d"` for each extent, `">"`. -/
def make_type (typenam : String) (shape : List Int) (constv : Bool) : String :=
  (shape.foldl (fun s v => s ++ ", " ++ toString v)
    ((if constv then "const " else "") ++ "enzyme::tensor<" ++ typenam)) ++ ">"

/-- One output reinterpretation statement (line 93): a mutable reference
`out_i` bound by casting `outs[i]` to a pointer to the non-const tensor type. -/
def out_line (i : Nat) (nm : String) (sh : List Int) : String :=
  " " ++ make_type nm sh false ++ "& out_" ++ toString i ++ " = " ++ "*(" ++
    make_type nm sh false ++ "*)outs[" ++ toString i ++ "];\n"

/-- One input reinterpretation statement (line 96): a const reference `in_i`
bound by casting `ins[i]` to a pointer to the const tensor type. -/
def in_line (i : Nat) (nm : String) (sh : List Int) : String :=
  " " ++ make_type nm sh true ++ "& in_" ++ toString i ++ " = " ++ "*(" ++
    make_type nm sh true ++ "*)ins[" ++ toString i ++ "];\n"

/-- The output loop of lines 92-94: one statement per declared output, indexed
from `i` upward in declaration order.  The C++ passes shapes and element-type
names as two parallel arrays of equal length (built pairwise by the pybind
layer); here each output is a `(name, shape)` pair. -/
def emit_out_lines : Nat → List (String × List Int) → List String
  | _, [] => []
  | i, (nm, sh) :: rest => out_line i nm sh :: emit_out_lines (i + 1) rest

/-- The input loop of lines 95-97, analogous to `emit_out_lines`. -/
def emit_in_lines : Nat → List (String × List Int) → List String
  | _, [] => []
  | i, (nm, sh) :: rest => in_line i nm sh :: emit_in_lines (i + 1) rest

/-- The comma-separated argument emission of lines 99-109: a single `comma`
flag shared across the output loop and the input loop, so no separator is
written before the first argument only. -/
def emit_args : List String → Bool → String → String
  | [], _, acc => acc
  | a :: rest, comma, acc => emit_args rest true (acc ++ (if comma then ", " else "") ++ a)

/-- The argument names written by the loops of lines 100-109: the loop bodies
emit the fixed stem followed by the decimal loop index. -/
def arg_names (stem : String) (k : Nat) : List String :=
  (List.range k).map (fun i => stem ++ toString i)

/-- The stem written for output arguments (`"out_" << i`, line 102). -/
def outStem : String := "out_"

/-- The stem written for input arguments (`"in_" << i`, line 107). -/
def inStem : String := "in_"

/-- The fixed callee name in the synthesized call statement (line 98 writes
the literal `"  myfn("`). -/
def calleeName : String := "myfn"

/-- The entry-function header written at line 91 (`\x7b` is `{`). -/
def entry_header : String :=
  "extern \"C\" void entry(void** __restrict__ outs, void** __restrict__ ins) \x7b\n"

/-- The translation unit synthesized by `create` (lines 86-111), with each
`++` operand mirroring one `ss <<` append in source order: the two include
lines, the user source plus newline, the entry header, the output then input
reinterpretation loops, the call statement, and the closing brace. -/
def synthesize (source : String) (outs ins : List (String × List Int)) : String :=
  "#include <cstdint>\n" ++
  "#include <enzyme_tensor>\n" ++
  (source ++ "\n") ++
  entry_header ++
  String.join (emit_out_lines 0 outs) ++
  String.join (emit_in_lines 0 ins) ++
  ("  " ++ calleeName ++ "(") ++
  emit_args (arg_names outStem outs.length ++ arg_names inStem ins.length) false "" ++
  ");\n" ++
  "\x7d\n"

/-! ## Locking discipline (`kernel_mutex`, lines 81 and 156) -/

/-- The two access modes of the `llvm::sys::SmartRWMutex` guarding the
registry. -/
inductive LockMode
  | writer
  | reader
deriving Repr, DecidableEq

/-- The successive phases of `CpuKernel::create`'s body (lines 82-152). -/
inductive CreateStep
  | allocIdentifier
  | synthesizeSource
  | compileSource
  | initJit
  | addModule
  | lookupEntry
  | insertRecord
deriving Repr, DecidableEq

/-- The lock held during each phase of `create`: the RAII
`SmartScopedWriter` acquired at line 81, the first statement of the body,
is released only when the function returns or throws, so every phase runs
under the writer lock. -/
def createBody : List (CreateStep × LockMode) :=
  [(CreateStep.allocIdentifier, LockMode.writer),
   (CreateStep.synthesizeSource, LockMode.writer),
   (CreateStep.compileSource, LockMode.writer),
   (CreateStep.initJit, LockMode.writer),
   (CreateStep.addModule, LockMode.writer),
   (CreateStep.lookupEntry, LockMode.writer),
   (CreateStep.insertRecord, LockMode.writer)]

/-- The single phase of `CpuKernel::get`'s body (lines 156-159). -/
inductive GetStep
  | lookupRecord
deriving Repr, DecidableEq

/-- The lock held during `get`: the RAII `SmartScopedReader` acquired at
line 156 spans the lookup. -/
def getBody : List (GetStep × LockMode) :=
  [(GetStep.lookupRecord, LockMode.reader)]

/-- Reader/writer mutex admission: two holders may be inside the lock at once
exactly when both hold shared (reader) access.  This models the semantics of
the external `llvm::sys::SmartRWMutex<true>`: readers are concurrent, a
writer excludes everyone. -/
def lockCompatible : LockMode → LockMode → Bool
  | LockMode.reader, LockMode.reader => true
  | _, _ => false

/-! ## Registry lemmas -/

/-- Every `create` call, successful or not, advances the identifier counter by
exactly one (the post-increment at line 82 happens before any failure exit). -/
theorem create_last (st : RegState) (o : Oracle) (outs : List Shape) :
    ((create st o outs).2).last_identifier = st.last_identifier + 1 := by
  simp only [create]
  split_ifs <;> rfl

/-- A successful `create` returns the pre-increment counter value. -/
theorem create_ok_id (st : RegState) (o : Oracle) (outs : List Shape) (k : Int)
    (h : (create st o outs).1 = Except.ok k) : k = st.last_identifier := by
  simp only [create] at h
  split_ifs at h <;> simp_all

/-- A failed `create` leaves the registry map untouched: every throw happens
before the `try_emplace` at line 149. -/
theorem create_err_kernels (st : RegState) (o : Oracle) (outs : List Shape) (e : CreateError)
    (h : (create st o outs).1 = Except.error e) :
    (create st o outs).2.kernels = st.kernels := by
  simp only [create] at h ⊢
  split_ifs at h ⊢ <;> simp_all

/-- When every external collaborator succeeds, `create` succeeds and returns
the allocated identifier. -/
theorem create_allOk (st : RegState) (o : Oracle) (outs : List Shape)
    (h1 : o.compileOk = true) (h2 : o.jitOk = true) (h3 : o.addOk = true)
    (h4 : o.lookupOk = true) :
    (create st o outs).1 = Except.ok st.last_identifier := by
  simp only [create]
  split_ifs <;> simp_all

/-- Registry well-formedness: every registered key is below the counter.  This
holds in the initial state and is preserved by `create`, and makes the
allocated identifier fresh. -/
def GoodState (st : RegState) : Prop := ∀ p ∈ st.kernels, p.1 < st.last_identifier

theorem good_init : GoodState initState := by
  intro p hp
  simp [initState] at hp

theorem lookup_mem (l : List (Int × KernelRecord)) (k : Int) (r : KernelRecord)
    (h : lookupKernel l k = some r) : (k, r) ∈ l := by
  induction l with
  | nil => simp [lookupKernel] at h
  | cons p rest ih =>
    obtain ⟨k', r'⟩ := p
    simp only [lookupKernel] at h
    split_ifs at h with hk
    · subst hk
      simp_all
    · exact List.mem_cons_of_mem _ (ih h)

theorem lookup_none_of_bound (l : List (Int × KernelRecord)) (b : Int)
    (h : ∀ p ∈ l, p.1 < b) : lookupKernel l b = none := by
  induction l with
  | nil => rfl
  | cons p rest ih =>
    obtain ⟨k', r'⟩ := p
    simp only [lookupKernel]
    have hk : k' < b := h (k', r') (by simp)
    rw [if_neg (by omega)]
    exact ih (fun q hq => h q (List.mem_cons_of_mem _ hq))

/-- Membership in the post-`create` registry: every entry was either present
before the call or is the freshly inserted record keyed by the pre-increment
counter. -/
theorem create_kernels_sub (st : RegState) (o : Oracle) (outs : List Shape)
    (p : Int × KernelRecord) (hp : p ∈ (create st o outs).2.kernels) :
    p ∈ st.kernels ∨ p.1 = st.last_identifier := by
  simp only [create] at hp
  split_ifs at hp <;> dsimp only at hp
  case _ => exact Or.inl hp
  case _ => exact Or.inl hp
  case _ => exact Or.inl hp
  case _ => exact Or.inl hp
  case _ =>
    simp only [tryEmplace] at hp
    cases hl : lookupKernel st.kernels st.last_identifier with
    | some r => rw [hl] at hp; exact Or.inl hp
    | none =>
      rw [hl] at hp
      rcases List.mem_cons.mp hp with h | h
      · subst h; exact Or.inr rfl
      · exact Or.inl h

theorem create_good (st : RegState) (o : Oracle) (outs : List Shape)
    (hg : GoodState st) : GoodState (create st o outs).2 := by
  intro p hp
  rw [create_last]
  rcases create_kernels_sub st o outs p hp with h | h
  · have := hg p h
    omega
  · omega

/-- A successful `create` registers, under the returned identifier, exactly
the record built from that call's output shapes and resolved entry address. -/
theorem create_ok_get (st : RegState) (o : Oracle) (outs : List Shape) (k : Int)
    (hg : GoodState st) (h : (create st o outs).1 = Except.ok k) :
    get (create st o outs).2 k =
      some { identifier := k, out_shapes := outs, addr := o.entryAddr } := by
  have hk := create_ok_id st o outs k h
  subst hk
  simp only [create, get] at h ⊢
  split_ifs at h ⊢ <;> simp_all
  simp only [tryEmplace]
  rw [lookup_none_of_bound st.kernels st.last_identifier hg]
  simp [lookupKernel]

/-- `create` never removes or overwrites an existing binding: the inserted
key is the fresh counter value, above every registered key. -/
theorem create_get_mono (st : RegState) (o : Oracle) (outs : List Shape)
    (k : Int) (r : KernelRecord) (hg : GoodState st) (h : get st k = some r) :
    get (create st o outs).2 k = some r := by
  have hk : k < st.last_identifier := by
    have := hg (k, r) (lookup_mem st.kernels k r h)
    simpa using this
  simp only [create, get] at h ⊢
  split_ifs <;> simp_all
  simp only [tryEmplace]
  rw [lookup_none_of_bound st.kernels st.last_identifier hg]
  simp only [lookupKernel]
  rw [if_neg (by omega)]
  exact h

theorem runTrace_good (st : RegState) (calls : List CreateCall)
    (hg : GoodState st) : GoodState (runTrace st calls).1 := by
  induction calls generalizing st with
  | nil => exact hg
  | cons c rest ih => exact ih _ (create_good st c.o c.outs hg)

theorem runTrace_get_mono (st : RegState) (calls : List CreateCall)
    (k : Int) (r : KernelRecord) (hg : GoodState st) (h : get st k = some r) :
    get (runTrace st calls).1 k = some r := by
  induction calls generalizing st with
  | nil => exact h
  | cons c rest ih =>
    exact ih _ (create_good st c.o c.outs hg) (create_get_mono st c.o c.outs k r hg h)

theorem runTrace_last (st : RegState) (calls : List CreateCall) :
    (runTrace st calls).1.last_identifier = st.last_identifier + calls.length := by
  induction calls generalizing st with
  | nil => simp [runTrace]
  | cons c rest ih =>
    simp only [runTrace, List.length_cons]
    rw [ih, create_last]
    push_cast
    ring

/-- The `i`-th call of a trace, when successful, returns exactly the starting
counter plus `i`: each call consumes one identifier value. -/
theorem runTrace_ok_at (calls : List CreateCall) (st : RegState) (i : Nat) (a : Int)
    (h : (runTrace st calls).2[i]? = some (Except.ok a)) :
    a = st.last_identifier + i := by
  induction calls generalizing st i with
  | nil => simp [runTrace] at h
  | cons c rest ih =>
    simp only [runTrace] at h
    cases i with
    | zero =>
      simp only [List.getElem?_cons_zero, Option.some.injEq] at h
      have ha := create_ok_id st c.o c.outs a h
      omega
    | succ i =>
      simp only [List.getElem?_cons_succ] at h
      have := ih (create st c.o c.outs).2 i h
      rw [create_last] at this
      push_cast at this ⊢
      omega

/-! ## Synthesizer lemmas -/

/-- The comma-and-space separator written between call arguments
(lines 101 and 106). -/
def commaSep : String := ", "

theorem join_foldl (xs : List String) (acc : String) :
    xs.foldl (fun r s => r ++ s) acc = acc ++ String.join xs := by
  induction xs generalizing acc with
  | nil => simp [String.join]
  | cons x rest ih =>
    simp only [String.join, List.foldl_cons]
    rw [ih (acc ++ x), ih ("" ++ x)]
    simp [String.append_assoc]

theorem join_append_str (a b : List String) :
    String.join (a ++ b) = String.join a ++ String.join b := by
  induction a with
  | nil => simp [String.join]
  | cons x rest ih =>
    simp only [List.cons_append, String.join, List.foldl_cons]
    simp only [join_foldl, ih]
    simp [String.append_assoc]

theorem emit_args_go (names : List String) (acc : String) :
    emit_args names true acc = String.intercalate.go acc commaSep names := by
  induction names generalizing acc with
  | nil => rfl
  | cons a rest ih =>
    simp only [emit_args, String.intercalate.go, if_pos]
    exact ih (acc ++ commaSep ++ a)

/-- The shared-flag comma loop of lines 99-109 renders exactly the
comma-separated interleaving of its argument list. -/
theorem emit_args_intercalate (names : List String) :
    emit_args names false "" = String.intercalate commaSep names := by
  cases names with
  | nil => rfl
  | cons a rest =>
    simp only [emit_args, if_neg, String.intercalate]
    rw [emit_args_go]
    simp

theorem emit_out_lines_length (outs : List (String × List Int)) (i : Nat) :
    (emit_out_lines i outs).length = outs.length := by
  induction outs generalizing i with
  | nil => rfl
  | cons p rest ih =>
    obtain ⟨nm, sh⟩ := p
    simp [emit_out_lines, ih]

theorem emit_in_lines_length (ins : List (String × List Int)) (i : Nat) :
    (emit_in_lines i ins).length = ins.length := by
  induction ins generalizing i with
  | nil => rfl
  | cons p rest ih =>
    obtain ⟨nm, sh⟩ := p
    simp [emit_in_lines, ih]

theorem emit_out_lines_get (outs : List (String × List Int)) (i j : Nat)
    (nm : String) (sh : List Int) (h : outs[j]? = some (nm, sh)) :
    (emit_out_lines i outs)[j]? = some (out_line (i + j) nm sh) := by
  induction outs generalizing i j with
  | nil => simp at h
  | cons p rest ih =>
    obtain ⟨nm', sh'⟩ := p
    cases j with
    | zero =>
      simp only [List.getElem?_cons_zero, Option.some.injEq, Prod.mk.injEq] at h
      simp [emit_out_lines, h.1, h.2]
    | succ j =>
      simp only [List.getElem?_cons_succ] at h
      simp only [emit_out_lines, List.getElem?_cons_succ]
      rw [ih (i + 1) j h]
      congr 2
      omega

theorem emit_in_lines_get (ins : List (String × List Int)) (i j : Nat)
    (nm : String) (sh : List Int) (h : ins[j]? = some (nm, sh)) :
    (emit_in_lines i ins)[j]? = some (in_line (i + j) nm sh) := by
  induction ins generalizing i j with
  | nil => simp at h
  | cons p rest ih =>
    obtain ⟨nm', sh'⟩ := p
    cases j with
    | zero =>
      simp only [List.getElem?_cons_zero, Option.some.injEq, Prod.mk.injEq] at h
      simp [emit_in_lines, h.1, h.2]
    | succ j =>
      simp only [List.getElem?_cons_succ] at h
      simp only [emit_in_lines, List.getElem?_cons_succ]
      rw [ih (i + 1) j h]
      congr 2
      omega

theorem arg_names_length (stem : String) (k : Nat) :
    (arg_names stem k).length = k := by
  simp [arg_names]

theorem arg_names_get (stem : String) (k j : Nat) (h : j < k) :
    (arg_names stem k)[j]? = some (stem ++ toString j) := by
  simp [arg_names, List.getElem?_map, List.getElem?_range, h]

/-! ## Concrete sample data used by witnesses -/

/-- An oracle on which every external collaborator succeeds. -/
def okOracle : Oracle :=
  { compileOk := true, jitOk := true, addOk := true, lookupOk := true, entryAddr := 5 }

/-- An oracle on which `GetLLVMFromJob` fails (e.g. a syntax error in the
user source). -/
def compileFailOracle : Oracle :=
  { compileOk := false, jitOk := true, addOk := true, lookupOk := true, entryAddr := 5 }

/-- An oracle on which the `LLJITBuilder` fails to construct the engine. -/
def jitFailOracle : Oracle :=
  { compileOk := true, jitOk := false, addOk := true, lookupOk := true, entryAddr := 5 }

/-- A sample trace: a successful creation, a failed compilation, and another
successful creation. -/
def sampleTrace : List CreateCall :=
  [⟨okOracle, [[4]]⟩, ⟨compileFailOracle, [[1]]⟩, ⟨okOracle, [[2]]⟩]

/-- A sample registry holding a one-output kernel and a two-output kernel. -/
def sampleState : RegState :=
  { kernels := [(1, { identifier := 1, out_shapes := [[4]], addr := 11 }),
                (2, { identifier := 2, out_shapes := [[4], [2, 2]], addr := 12 })],
    last_identifier := 3, jit := true }

def fltName : String := "float"

def dblName : String := "double"

def sampleSource : String := "void myfn();"

def sampleOuts : List (String × List Int) := [(fltName, [4]), (dblName, [2, 3])]

def sampleIns : List (String × List Int) := [(fltName, [4])]

def zeroOutRecord : KernelRecord := { identifier := 9, out_shapes := [], addr := 4 }

/-! ## Claims -/

/-- C1: Identifier allocation invariant.  Over any trace of `create` calls
from the initial state: the counter starts at 1 and each call (successful or
failed) consumes exactly one identifier value; a successful first call
returns identifier 1; and later successful calls return strictly larger
identifiers than earlier successful calls, so returned identifiers are
pairwise distinct and never reused. -/
theorem identifier_allocation_invariant (calls : List CreateCall) :
    ((runTrace initState calls).1.last_identifier = 1 + calls.length) ∧
    (∀ a : Int, (runTrace initState calls).2[0]? = some (Except.ok a) → a = 1) ∧
    (∀ i j : Nat, ∀ a b : Int, i < j →
      (runTrace initState calls).2[i]? = some (Except.ok a) →
      (runTrace initState calls).2[j]? = some (Except.ok b) → a < b) := by
  have hinit : initState.last_identifier = 1 := rfl
  refine ⟨?_, ?_, ?_⟩
  · rw [runTrace_last, hinit]
  · intro a h
    have := runTrace_ok_at calls initState 0 a h
    rw [hinit] at this
    omega
  · intro i j a b hij hi hj
    have ha := runTrace_ok_at calls initState i a hi
    have hb := runTrace_ok_at calls initState j b hj
    rw [hinit] at ha hb
    omega

theorem identifier_allocation_invariant_witness :
    (runTrace initState sampleTrace).1.last_identifier = 1 + sampleTrace.length ∧
    (1 : Int) = 1 ∧ (1 : Int) < 3 :=
  ⟨(identifier_allocation_invariant sampleTrace).1,
   (identifier_allocation_invariant sampleTrace).2.1 1 rfl,
   (identifier_allocation_invariant sampleTrace).2.2 0 2 1 3 (by decide) rfl rfl⟩

/-- C2: Dispatch on a registered identifier.  `CpuCallback` reads the 64-bit
identifier from the zeroth input slot, looks the kernel up, and calls its
entry address with the inputs advanced past the identifier slot and an
outputs argument that is the supplied pointer taken directly as the sole
output slot when the kernel declares exactly one output, or the supplied
value reinterpreted as an array of per-output pointers when it declares more
than one. -/
theorem dispatch_registered_kernel (st : RegState) (readI64 : Nat → Int)
    (out ins0 : Nat) (insRest : List Nat) (k : KernelRecord)
    (hk : get st (readI64 ins0) = some k) :
    (CpuCallback st readI64 out ins0 insRest =
      CallbackOutcome.called
        { addr := k.addr
          outsArg := if k.out_shapes.length > 1 then OutsArg.array out else OutsArg.direct out
          insArg := insRest }) ∧
    (k.out_shapes.length = 1 →
      CpuCallback st readI64 out ins0 insRest =
        CallbackOutcome.called
          { addr := k.addr, outsArg := OutsArg.direct out, insArg := insRest }) ∧
    (k.out_shapes.length > 1 →
      CpuCallback st readI64 out ins0 insRest =
        CallbackOutcome.called
          { addr := k.addr, outsArg := OutsArg.array out, insArg := insRest }) := by
  refine ⟨?_, ?_, ?_⟩
  · simp [CpuCallback, hk, KernelRecord.call]
  · intro h1
    simp [CpuCallback, hk, KernelRecord.call, h1]
  · intro h1
    simp [CpuCallback, hk, KernelRecord.call, h1]

theorem dispatch_registered_kernel_witness :
    CpuCallback sampleState (fun _ => 2) 100 0 [7, 8] =
      CallbackOutcome.called
        { addr := 12, outsArg := OutsArg.array 100, insArg := [7, 8] } :=
  (dispatch_registered_kernel sampleState (fun _ => 2) 100 0 [7, 8]
    { identifier := 2, out_shapes := [[4], [2, 2]], addr := 12 } rfl).2.2 (by decide)

/-- C3: Creation-failure atomicity.  A `create` call that fails (with any of
the four errors) leaves the registry mapping exactly as before the call, and
a subsequent create on which every collaborator succeeds returns the next
identifier value. -/
theorem creation_failure_atomicity (st : RegState) (o o2 : Oracle)
    (outs outs2 : List Shape) (e : CreateError)
    (hfail : (create st o outs).1 = Except.error e)
    (h1 : o2.compileOk = true) (h2 : o2.jitOk = true) (h3 : o2.addOk = true)
    (h4 : o2.lookupOk = true) :
    (create st o outs).2.kernels = st.kernels ∧
    (create (create st o outs).2 o2 outs2).1 =
      Except.ok (st.last_identifier + 1) := by
  constructor
  · exact create_err_kernels st o outs e hfail
  · rw [create_allOk _ o2 outs2 h1 h2 h3 h4, create_last]

theorem creation_failure_atomicity_witness :
    (create initState compileFailOracle [[4]]).2.kernels = initState.kernels ∧
    (create (create initState compileFailOracle [[4]]).2 okOracle [[7]]).1 =
      Except.ok (initState.last_identifier + 1) :=
  creation_failure_atomicity initState compileFailOracle okOracle [[4]] [[7]]
    CreateError.compileFail rfl rfl rfl rfl rfl

/-- C4: Registration round-trip.  For every reachable state, if a `create`
call succeeds returning identifier `k`, then after any further sequence of
`create` calls, `get k` returns (not the not-found signal but) the record
registered by that call, whose output-shape list is exactly the list
supplied to the call. -/
theorem registration_roundtrip (pre later : List CreateCall) (o : Oracle)
    (outs : List Shape) (k : Int)
    (hok : (create (runTrace initState pre).1 o outs).1 = Except.ok k) :
    get (runTrace (create (runTrace initState pre).1 o outs).2 later).1 k =
      some { identifier := k, out_shapes := outs, addr := o.entryAddr } := by
  have hg : GoodState (runTrace initState pre).1 :=
    runTrace_good initState pre good_init
  exact runTrace_get_mono _ later k _ (create_good _ o outs hg)
    (create_ok_get _ o outs k hg hok)

theorem registration_roundtrip_witness :
    get (runTrace (create (runTrace initState []).1 okOracle [[4], [2]]).2
        [⟨okOracle, [[9]]⟩]).1 1 =
      some { identifier := 1, out_shapes := [[4], [2]], addr := okOracle.entryAddr } :=
  registration_roundtrip [] [⟨okOracle, [[9]]⟩] okOracle [[4], [2]] 1 rfl

/-- C6: Unknown-identifier fatality.  When `get` returns the not-found signal
for the identifier read from the zeroth input slot, `CpuCallback` reaches
`report_fatal_error` (modelled as the `fatal` outcome, which terminates the
process): it never returns a `called` outcome, i.e. never calls through an
entry address. -/
theorem unknown_identifier_fatal (st : RegState) (readI64 : Nat → Int)
    (out ins0 : Nat) (insRest : List Nat)
    (h : get st (readI64 ins0) = none) :
    CpuCallback st readI64 out ins0 insRest = CallbackOutcome.fatal ∧
    ∀ e : CallEvent,
      CpuCallback st readI64 out ins0 insRest ≠ CallbackOutcome.called e := by
  have hmain : CpuCallback st readI64 out ins0 insRest = CallbackOutcome.fatal := by
    simp [CpuCallback, h]
  refine ⟨hmain, fun e he => ?_⟩
  rw [hmain] at he
  exact CallbackOutcome.noConfusion he

theorem unknown_identifier_fatal_witness :
    CpuCallback initState (fun _ => 42) 0 0 [] = CallbackOutcome.fatal :=
  (unknown_identifier_fatal initState (fun _ => 42) 0 0 [] rfl).1

/-- C7 counterexample: a `create` call that fails at JIT construction does
not make later creations impossible.  Concretely: from the initial state, a
first call whose JIT builder fails raises the JIT error, yet a second call
on which every collaborator (including the retried JIT builder) succeeds
returns identifier 2 — the singleton construction is simply retried, so the
failure is not permanent. -/
theorem jit_init_failure_counterexample :
    (create initState jitFailOracle [[4]]).1 = Except.error CreateError.jitFail ∧
    (create (create initState jitFailOracle [[4]]).2 okOracle [[4]]).1 =
      Except.ok 2 :=
  ⟨rfl, rfl⟩

/-- C7 amended: if a `create` call fails at JIT construction, that call
raises an error, the JIT singleton stays unconstructed and the registry is
unchanged; the failure is not latched — a subsequent `create` retries the
construction, and succeeds whenever all of its collaborators (including the
JIT builder) succeed. -/
theorem jit_init_failure_not_latched (st : RegState) (o : Oracle)
    (outs : List Shape)
    (hfail : (create st o outs).1 = Except.error CreateError.jitFail) :
    (create st o outs).2.jit = false ∧
    (create st o outs).2.kernels = st.kernels ∧
    (∀ o2 : Oracle, ∀ outs2 : List Shape, o2.compileOk = true → o2.jitOk = true →
      o2.addOk = true → o2.lookupOk = true →
      (create (create st o outs).2 o2 outs2).1 =
        Except.ok (st.last_identifier + 1)) := by
  refine ⟨?_, create_err_kernels st o outs _ hfail, ?_⟩
  · simp only [create] at hfail ⊢
    split_ifs at hfail ⊢ <;> simp_all
  · intro o2 outs2 h1 h2 h3 h4
    rw [create_allOk _ o2 outs2 h1 h2 h3 h4, create_last]

theorem jit_init_failure_not_latched_witness :
    (create initState jitFailOracle [[4]]).2.jit = false ∧
    (create (create initState jitFailOracle [[4]]).2 okOracle [[7]]).1 =
      Except.ok (initState.last_identifier + 1) := by
  have h := jit_init_failure_not_latched initState jitFailOracle [[4]] rfl
  exact ⟨h.1, h.2.2 okOracle [[7]] rfl rfl rfl rfl⟩

/-- C8: Zero-output edge case.  `CpuKernel::call` selects the
array-of-per-output-pointers interpretation exactly when the kernel declares
strictly more than one output; with an empty declared output list it takes
the same direct-pointer path as the single-output case. -/
theorem zero_output_direct_path (r : KernelRecord) (out : Nat) (ins : List Nat) :
    (r.out_shapes.length = 0 → (r.call out ins).outsArg = OutsArg.direct out) ∧
    ((r.call out ins).outsArg = OutsArg.array out ↔ 1 < r.out_shapes.length) := by
  refine ⟨?_, ?_⟩
  · intro h
    simp [KernelRecord.call, h]
  · simp only [KernelRecord.call]
    split_ifs with hgt
    · simp [hgt]
    · simp [hgt]

theorem zero_output_direct_path_witness :
    (zeroOutRecord.call 5 [1, 2]).outsArg = OutsArg.direct 5 :=
  (zero_output_direct_path zeroOutRecord 5 [1, 2]).1 rfl

/-- C5: Source synthesis.  For `m` outputs and `n` inputs, the synthesized
translation unit decomposes as the fixed prelude and entry header, the
concatenation of a list of exactly `m + n` reinterpretation statements
(the `m` mutable-reference output statements in declaration order, then the
`n` const-reference input statements in declaration order), and a call
statement whose comma-separated argument list is exactly
`out_0 … out_(m-1)` followed by `in_0 … in_(n-1)`. -/
theorem synthesis_counts_and_order (source : String)
    (outs ins : List (String × List Int)) :
    ((emit_out_lines 0 outs ++ emit_in_lines 0 ins).length
        = outs.length + ins.length) ∧
    (∀ j : Nat, ∀ nm : String, ∀ sh : List Int, outs[j]? = some (nm, sh) →
      (emit_out_lines 0 outs ++ emit_in_lines 0 ins)[j]?
        = some (out_line j nm sh)) ∧
    (∀ j : Nat, ∀ nm : String, ∀ sh : List Int, ins[j]? = some (nm, sh) →
      (emit_out_lines 0 outs ++ emit_in_lines 0 ins)[outs.length + j]?
        = some (in_line j nm sh)) ∧
    ((arg_names outStem outs.length ++ arg_names inStem ins.length).length
        = outs.length + ins.length) ∧
    (∀ j : Nat, j < outs.length →
      (arg_names outStem outs.length ++ arg_names inStem ins.length)[j]?
        = some (outStem ++ toString j)) ∧
    (∀ j : Nat, j < ins.length →
      (arg_names outStem outs.length ++ arg_names inStem ins.length)[outs.length + j]?
        = some (inStem ++ toString j)) ∧
    (synthesize source outs ins =
      "#include <cstdint>\n" ++ "#include <enzyme_tensor>\n" ++ (source ++ "\n") ++
      entry_header ++
      String.join (emit_out_lines 0 outs ++ emit_in_lines 0 ins) ++
      ("  " ++ calleeName ++ "(") ++
      String.intercalate commaSep
        (arg_names outStem outs.length ++ arg_names inStem ins.length) ++
      ");\n" ++ "\x7d\n") := by
  refine ⟨?_, ?_, ?_, ?_, ?_, ?_, ?_⟩
  · simp [emit_out_lines_length, emit_in_lines_length]
  · intro j nm sh h
    have hj : j < outs.length := by
      have := List.getElem?_eq_some.mp h
      exact this.1
    rw [List.getElem?_append_left (by rw [emit_out_lines_length]; exact hj)]
    have := emit_out_lines_get outs 0 j nm sh h
    simpa using this
  · intro j nm sh h
    rw [List.getElem?_append_right (by rw [emit_out_lines_length]; omega)]
    rw [emit_out_lines_length]
    have := emit_in_lines_get ins 0 j nm sh h
    have harith : outs.length + j - outs.length = j := by omega
    rw [harith]
    simpa using this
  · simp [arg_names_length]
  · intro j hj
    rw [List.getElem?_append_left (by rw [arg_names_length]; exact hj)]
    exact arg_names_get outStem outs.length j hj
  · intro j hj
    rw [List.getElem?_append_right (by rw [arg_names_length]; omega)]
    rw [arg_names_length]
    have harith : outs.length + j - outs.length = j := by omega
    rw [harith]
    exact arg_names_get inStem ins.length j hj
  · simp only [synthesize]
    rw [join_append_str, emit_args_intercalate]
    simp [String.append_assoc]

theorem synthesis_counts_and_order_witness :
    (emit_out_lines 0 sampleOuts ++ emit_in_lines 0 sampleIns)[1]?
      = some (out_line 1 dblName [2, 3]) ∧
    (emit_out_lines 0 sampleOuts ++ emit_in_lines 0 sampleIns)[2]?
      = some (in_line 0 fltName [4]) ∧
    (arg_names outStem sampleOuts.length ++ arg_names inStem sampleIns.length)[2]?
      = some (inStem ++ toString 0) :=
  ⟨(synthesis_counts_and_order sampleSource sampleOuts sampleIns).2.1 1 dblName [2, 3] rfl,
   (synthesis_counts_and_order sampleSource sampleOuts sampleIns).2.2.1 0 fltName [4] rfl,
   (synthesis_counts_and_order sampleSource sampleOuts sampleIns).2.2.2.2.2.1 0 (by decide)⟩

/-- C9: Fixed callee name.  For every user source text (and every shape
configuration), the synthesized entry function invokes a function with the
literal name `myfn`: the synthesized unit always decomposes around the
constant call prefix built from `calleeName`, and `calleeName` is the
literal string `myfn` — the callee name never depends on the user-supplied
source. -/
theorem fixed_callee_name (source : String) (outs ins : List (String × List Int)) :
    ∃ decls args : String,
      synthesize source outs ins =
        "#include <cstdint>\n" ++ "#include <enzyme_tensor>\n" ++ (source ++ "\n") ++
        entry_header ++ decls ++ ("  " ++ calleeName ++ "(") ++ args ++
        (");\n" ++ "\x7d\n") ∧
      calleeName = "myfn" := by
  refine ⟨String.join (emit_out_lines 0 outs) ++ String.join (emit_in_lines 0 ins),
    emit_args (arg_names outStem outs.length ++ arg_names inStem ins.length) false "",
    ?_, rfl⟩
  simp only [synthesize]
  simp [String.append_assoc]

/-- C10: Locking discipline.  Every phase of `create`'s body — identifier
allocation, synthesis, compilation, JIT initialization, linking, symbol
lookup, insertion — runs under the writer lock acquired by its first
statement, while `get`'s lookup runs under the reader lock; under
reader/writer admission two readers are compatible (concurrent `get` calls
never block each other) and a writer excludes both readers and writers
(a `get` blocks only behind an in-progress `create`). -/
theorem locking_discipline :
    (createBody.all (fun p => p.2 == LockMode.writer) = true) ∧
    (getBody.all (fun p => p.2 == LockMode.reader) = true) ∧
    lockCompatible LockMode.reader LockMode.reader = true ∧
    lockCompatible LockMode.reader LockMode.writer = false ∧
    lockCompatible LockMode.writer LockMode.reader = false ∧
    lockCompatible LockMode.writer LockMode.writer = false := by
  decide

end EnzymeCall
